import Mathlib

/-!
Shallow embedding of `src/main.py` of ShadowStrikeHQ/monitor-networkconnections.

The program polls the OS connection table, fingerprints each connection,
diffs against a persisted "known connections" mapping, reports new entries,
merges the snapshot into the known set and saves it as JSON.

Modelling conventions:
* Python `dict` is modelled as an association list `PyDict K V := List (K × V)`
  with first-match lookup and in-place-overwrite insertion (`pyInsert`),
  exactly the observable behaviour of `d[k] = v` / `k in d` / `d.update`.
* Python dictionary keys in this program are either `int` (results of `hash`)
  or `str` (keys read back from JSON), modelled by the sum type `PyKey`.
* Python's builtin `hash` of a string is modelled by `pyHash`, a concrete
  deterministic function of the string; only its determinism matters here.
* The file system is a total map `FS : String → FileEntry`.  File contents
  are abstracted to whether they parse as JSON and, when they do, to the
  parsed value (`JsonText`): `json.dump` always produces well-formed text,
  and `json.load` raises `JSONDecodeError` on malformed text (an empty file
  is the malformed text `""`).
* `psutil` is an external collaborator; its behaviour at a tick is an
  environment `PsEnv` (which pids exist, and how resolving a pid to a
  process name turns out: `Except.error` models the caught
  `NoSuchProcess`/`AccessDenied` exceptions).
* I/O failures on `open`/write are modelled by a boolean flag passed to the
  functions that write; Python's `try/except` around the writes makes the
  functions total, which the model mirrors by returning the unchanged state.
-/

/-- A Python dict key as used in this program: an `int` fingerprint produced
by `hash(...)` inside `get_current_connections`, or a `str` key produced by
`json.load` inside `load_known_connections`. -/
inductive PyKey where
  | int (n : Int)
  | str (s : String)
deriving DecidableEq, Repr

/-- The per-connection record built in `get_current_connections`
(`src/main.py` lines 51-59) and stored as the value of the connections
dict: fields `pid`, `local_address`, `remote_address`, `status`,
`process_name`, `family`, `type`. -/
structure ConnRecord where
  pid : Option Int
  local_address : String
  remote_address : String
  status : String
  process_name : String
  family : String
  type : String
deriving DecidableEq, Repr

/-- A Python `dict` as an association list: first-match lookup,
overwrite-in-place insertion. -/
abbrev PyDict (K V : Type) : Type := List (K × V)

namespace PyDict

variable {K V : Type} [DecidableEq K]

/-- `d[k] = v`: overwrite the value at `k` when present, else append. -/
def pyInsert : PyDict K V → K → V → PyDict K V
  | [], k, v => [(k, v)]
  | (k', v') :: rest, k, v =>
      if k = k' then (k', v) :: rest else (k', v') :: pyInsert rest k v

/-- `d.get(k)` / `d[k]`: first matching entry. -/
def lookup : PyDict K V → K → Option V
  | [], _ => none
  | (k', v') :: rest, k => if k = k' then some v' else lookup rest k

/-- `k in d`. -/
def containsKey (d : PyDict K V) (k : K) : Bool :=
  (d.lookup k).isSome

/-- The keys of the dict, in order. -/
def keys (d : PyDict K V) : List K :=
  List.map Prod.fst d

/-- `known.update(current)` (`src/main.py` line 153): insert-or-overwrite
every entry of `current` into `known`. -/
def pyUpdate (d current : PyDict K V) : PyDict K V :=
  current.foldl (fun a kv => pyInsert a kv.1 kv.2) d

end PyDict

open PyDict

/-! ## The connection snapshot (`get_current_connections`, lines 24-63) -/

/-- An endpoint address as reported by psutil (`conn.laddr` / `conn.raddr`),
with fields `ip` and `port`; `none` at the use site models a missing/empty
endpoint (psutil yields an empty tuple, which is falsy). -/
structure Addr where
  ip : String
  port : Nat
deriving DecidableEq, Repr

/-- One raw connection as yielded by `psutil.net_connections(kind='inet')`. -/
structure RawConn where
  laddr : Option Addr
  raddr : Option Addr
  pid : Option Int
  status : String
  family : String
  type : String
deriving DecidableEq, Repr

/-- The behaviour of the psutil process API during one tick:
`pid_exists` models `psutil.pid_exists`, and `proc_name` models
`psutil.Process(pid).name()`, with `Except.error` standing for the caught
`psutil.NoSuchProcess` / `psutil.AccessDenied` exceptions. -/
structure PsEnv where
  pid_exists : Int → Bool
  proc_name : Int → Except Unit String

/-- `f"{conn.laddr.ip}:{conn.laddr.port}"` (lines 35-36). -/
def formatAddr (a : Addr) : String :=
  a.ip ++ ":" ++ toString a.port

/-- How Python interpolates `conn.pid` into an f-string: `None` or the
decimal digits. -/
def pidStr : Option Int → String
  | none => "None"
  | some n => toString n

/-- Model of Python's builtin `hash` on strings: a concrete deterministic
function (the exact values are immaterial to every claim; only that it is a
pure function of the string matters). -/
def pyHash (s : String) : Int :=
  s.foldl (fun h c => (h * 31 + Int.ofNat c.toNat) % (2 ^ 61 - 1)) 7

/-- `hash(f"{conn.pid}-{local_address}-{remote_address}-{conn.status}")`
(line 50): the connection fingerprint. -/
def connection_hash (pid : Option Int) (local_address remote_address status : String) : Int :=
  pyHash (pidStr pid ++ "-" ++ local_address ++ "-" ++ remote_address ++ "-" ++ status)

/-- The body of the loop in `get_current_connections` for one raw
connection (lines 32-59): `none` when the record is skipped by the
`conn.laddr and conn.raddr` sanity check. -/
def processRaw (env : PsEnv) (c : RawConn) : Option (PyKey × ConnRecord) :=
  match c.laddr, c.raddr with
  | some la, some ra =>
      let local_address := formatAddr la
      let remote_address := formatAddr ra
      let process_name :=
        match c.pid with
        | some p =>
            if env.pid_exists p then
              match env.proc_name p with
              | .ok n => n
              | .error _ => "Unknown"
            else "System"
        | none => "System"
      let h := connection_hash c.pid local_address remote_address c.status
      some (PyKey.int h,
        { pid := c.pid
          local_address := local_address
          remote_address := remote_address
          status := c.status
          process_name := process_name
          family := c.family
          type := c.type })
  | _, _ => none

/-- The in-memory `connections` / `known_connections` dictionaries. -/
abbrev KnownMap := PyDict PyKey ConnRecord

/-- One iteration of the loop of `get_current_connections` (lines 31-59):
insert the processed record, or leave the dict unchanged when the record is
skipped. -/
def gccStep (env : PsEnv) (d : KnownMap) (c : RawConn) : KnownMap :=
  match processRaw env c with
  | some kv => pyInsert d kv.1 kv.2
  | none => d

/-- `get_current_connections()` (lines 24-63) applied to the raw list the
OS enumeration returns this tick. -/
def get_current_connections (env : PsEnv) (raws : List RawConn) : KnownMap :=
  raws.foldl (gccStep env) []

/-! ## JSON values and the file system -/

/-- A parsed JSON value (what `json.load` returns / `json.dump` writes). -/
inductive JsonVal where
  | null
  | jint (n : Int)
  | jstr (s : String)
  | jarr (xs : List JsonVal)
  | jobj (fields : List (String × JsonVal))
deriving Repr

/-- The text of a file, abstracted to whether it parses as JSON:
`json.dump` always emits well-formed text, and `json.load` raises
`JSONDecodeError` exactly on malformed text.  An empty file is the
malformed text `""`. -/
inductive JsonText where
  | malformed (s : String)
  | wellFormed (v : JsonVal)

/-- One path of the file system: absent, or a file with some text. -/
inductive FileEntry where
  | absent
  | file (t : JsonText)

/-- The file system: contents by path. -/
def FS : Type := String → FileEntry

/-- `open(path, 'w')` + `json.dump(v, f)`: replace the entry at `path`. -/
def fsWrite (fs : FS) (path : String) (v : JsonVal) : FS :=
  fun q => if q = path then .file (.wellFormed v) else fs q

/-! ## Serialization (`json.dump` of the connections dict) -/

/-- How `json.dump` serializes a dict key: `int` keys become their decimal
string, `str` keys stay as they are. -/
def keyToString : PyKey → String
  | .int n => toString n
  | .str s => s

/-- How `json.dump` serializes one connection record: a JSON object with
the seven fields of lines 51-59 (`pid` is `null` when `None`). -/
def recordToJson (r : ConnRecord) : JsonVal :=
  .jobj
    [ ("pid", match r.pid with | none => .null | some n => .jint n)
    , ("local_address", .jstr r.local_address)
    , ("remote_address", .jstr r.remote_address)
    , ("status", .jstr r.status)
    , ("process_name", .jstr r.process_name)
    , ("family", .jstr r.family)
    , ("type", .jstr r.type) ]

/-- How `json.dump` serializes the whole connections dict. -/
def knownToJson (m : KnownMap) : JsonVal :=
  .jobj (m.map (fun kv => (keyToString kv.1, recordToJson kv.2)))

/-- The typed reading of the known-connections JSON schema (spec section 6):
decodes a serialized record back to its fields.  Used to state
field-for-field equality between a saved mapping and a reloaded file. -/
def jsonToRecord : JsonVal → Option ConnRecord
  | .jobj
      [ ("pid", p)
      , ("local_address", .jstr la)
      , ("remote_address", .jstr ra)
      , ("status", .jstr st)
      , ("process_name", .jstr pn)
      , ("family", .jstr fam)
      , ("type", .jstr ty) ] =>
      match p with
      | .null => some ⟨none, la, ra, st, pn, fam, ty⟩
      | .jint n => some ⟨some n, la, ra, st, pn, fam, ty⟩
      | _ => none
  | _ => none

/-- The typed reading of a whole known-connections file: every key becomes
the `str` key `json.load` produces, every value must decode as a record. -/
def jsonToKnown : JsonVal → Option KnownMap
  | .jobj fields =>
      fields.foldr
        (fun kv acc =>
          match jsonToRecord kv.2, acc with
          | some r, some m => some ((PyKey.str kv.1, r) :: m)
          | _, _ => none)
        (some [])
  | _ => none

/-! ## Persistence (`load_known_connections` / `save_known_connections`) -/

/-- `load_known_connections(file_path)` (lines 65-87): returns the parsed
JSON value when the file exists and parses, and `{}` when the path does not
exist or any exception (in particular `json.JSONDecodeError`) occurs.  The
`try/except` chain makes the Python function total, which the model mirrors
by being a total function. -/
def load_known_connections (fs : FS) (file_path : String) : JsonVal :=
  match fs file_path with
  | .absent => .jobj []
  | .file (.malformed _) => .jobj []
  | .file (.wellFormed v) => v

/-- `save_known_connections(connections, file_path)` (lines 89-100):
writes `json.dump(connections)` at `file_path`; any I/O failure (modelled
by `ioFail`, a failure of `open`) is caught and logged, so the function
returns normally in both cases; the dict argument is never mutated, which
the model states by returning it alongside the file system. -/
def save_known_connections (connections : KnownMap) (file_path : String)
    (fs : FS) (ioFail : Bool) : KnownMap × FS :=
  if ioFail then (connections, fs)
  else (connections, fsWrite fs file_path (knownToJson connections))

/-! ## Diffing and reporting (`check_for_new_connections`, lines 102-129) -/

/-- The first loop of `check_for_new_connections` (lines 110-114): collect
every entry of `current_connections` whose key is not in
`known_connections` into a fresh dict. -/
def new_connections_of (known_connections current_connections : KnownMap) : KnownMap :=
  current_connections.foldl
    (fun nw kv =>
      if containsKey known_connections kv.1 then nw
      else pyInsert nw kv.1 kv.2)
    []

/-- `check_for_new_connections(known, current, output_file)` (lines
102-129): computes the new-connections dict, and when it is non-empty and
an output file is configured writes it there (`json.dump`, overwriting);
a write failure (modelled by `writeFail`) is caught and logged.  Returns
the new-connections dict and the resulting file system. -/
def check_for_new_connections (known_connections current_connections : KnownMap)
    (output_file : Option String) (fs : FS) (writeFail : Bool) : KnownMap × FS :=
  let new_connections := new_connections_of known_connections current_connections
  if new_connections.isEmpty then (new_connections, fs)
  else
    match output_file with
    | some p =>
        if writeFail then (new_connections, fs)
        else (new_connections, fsWrite fs p (knownToJson new_connections))
    | none => (new_connections, fs)

/-! ## The polling loop (`main`, lines 131-164)

Each tick computes the current snapshot, diffs, merges with
`known_connections.update(current_connections)` and saves.  For the
in-memory evolution of `known_connections` across a run, the snapshots of
the successive ticks are the input. -/

/-- The value of `known_connections` after folding the first ticks'
snapshots into the initial (loaded) mapping, one `update` per tick
(line 153). -/
def known_after (init : KnownMap) (snaps : List KnownMap) : KnownMap :=
  snaps.foldl pyUpdate init

/-! ## Concrete fixtures for witnesses and counterexamples -/

/-- An empty file system. -/
def fs0 : FS := fun _ => .absent

/-- A file system whose every path holds an empty file. -/
def fsEmptyFile : FS := fun _ => .file (.malformed "")

/-- A file system whose every path holds syntactically invalid JSON. -/
def fsBadFile : FS := fun _ => .file (.malformed "not json")

def rec0 : ConnRecord :=
  ⟨some 100, "10.0.0.1:5000", "93.184.216.34:443", "ESTABLISHED", "curl", "2", "1"⟩

def rec1 : ConnRecord :=
  ⟨some 200, "10.0.0.1:5001", "1.2.3.4:80", "ESTABLISHED", "wget", "2", "1"⟩

def known0 : KnownMap := [(PyKey.int 1, rec0)]

def current0 : KnownMap := [(PyKey.int 1, rec0), (PyKey.int 2, rec1)]

def mStr : KnownMap := [(PyKey.str "42", rec0)]

/-- psutil behaviour where every pid has already vanished: `pid_exists` is
false everywhere (and resolution would raise if reached). -/
def envVanished : PsEnv := ⟨fun _ => false, fun _ => .error ()⟩

/-- psutil behaviour where pids exist but `Process(pid).name()` raises
(`NoSuchProcess`/`AccessDenied`). -/
def envDenied : PsEnv := ⟨fun _ => true, fun _ => .error ()⟩

/-- A raw connection with both endpoints and a pid. -/
def rawPid : RawConn :=
  ⟨some ⟨"10.0.0.1", 5000⟩, some ⟨"93.184.216.34", 443⟩,
    some 42, "ESTABLISHED", "2", "1"⟩

/-! ## Dictionary lemmas -/

namespace PyDict

variable {K V : Type} [DecidableEq K]

@[simp] theorem lookup_nil (k : K) : lookup ([] : PyDict K V) k = none := rfl

@[simp] theorem lookup_cons (k' : K) (v' : V) (rest : PyDict K V) (k : K) :
    lookup ((k', v') :: rest) k = if k = k' then some v' else lookup rest k := rfl

theorem lookup_pyInsert (d : PyDict K V) (k : K) (v : V) (k' : K) :
    lookup (pyInsert d k v) k' = if k' = k then some v else lookup d k' := by
  induction d with
  | nil => simp [pyInsert]
  | cons hd tl ih =>
      obtain ⟨k₀, v₀⟩ := hd
      by_cases hk : k = k₀
      · subst hk
        by_cases hk' : k' = k <;> simp [pyInsert, hk']
      · by_cases hk₀ : k' = k₀
        · have hk'k : ¬k' = k := fun h => hk (h.symm.trans hk₀)
          have hk₀k : ¬k₀ = k := fun h => hk h.symm
          simp [pyInsert, hk, hk₀, hk'k, hk₀k]
        · simp [pyInsert, hk, hk₀, ih]

theorem containsKey_pyInsert (d : PyDict K V) (k : K) (v : V) (k' : K) :
    containsKey (pyInsert d k v) k' = (k' = k || containsKey d k') := by
  by_cases h : k' = k <;> simp [containsKey, lookup_pyInsert, h]

theorem containsKey_iff_mem_keys (d : PyDict K V) (k : K) :
    containsKey d k = true ↔ k ∈ keys d := by
  induction d with
  | nil => simp [containsKey, keys]
  | cons hd tl ih =>
      obtain ⟨k₀, v₀⟩ := hd
      by_cases h : k = k₀
      · simp [containsKey, keys, h]
      · simpa [containsKey, keys, h] using ih

theorem containsKey_pyUpdate (d current : PyDict K V) (k : K) :
    containsKey (pyUpdate d current) k = (containsKey d k || containsKey current k) := by
  induction current generalizing d with
  | nil => simp [pyUpdate, containsKey]
  | cons hd tl ih =>
      obtain ⟨k₀, v₀⟩ := hd
      show containsKey (pyUpdate (pyInsert d k₀ v₀) tl) k = _
      rw [ih, containsKey_pyInsert]
      by_cases h : k = k₀ <;>
        simp [containsKey, h, Bool.or_comm, Bool.or_assoc, Bool.or_left_comm]

/-- With duplicate-free keys in `current`, `update` takes `current`'s value
on keys of `current` and keeps `d`'s value elsewhere. -/
theorem lookup_pyUpdate (d current : PyDict K V)
    (hnd : (keys current).Nodup) (k : K) :
    lookup (pyUpdate d current) k =
      if containsKey current k then lookup current k else lookup d k := by
  induction current generalizing d with
  | nil => simp [pyUpdate, containsKey]
  | cons hd tl ih =>
      obtain ⟨k₀, v₀⟩ := hd
      simp only [keys, List.map_cons, List.nodup_cons] at hnd
      show lookup (pyUpdate (pyInsert d k₀ v₀) tl) k = _
      rw [ih _ hnd.2]
      by_cases h : k = k₀
      · subst h
        have hct : containsKey tl k = false := by
          rw [← Bool.not_eq_true, containsKey_iff_mem_keys]
          exact fun hm => hnd.1 (by simpa [keys] using hm)
        rw [if_neg (by simp [hct]), lookup_pyInsert]
        simp [containsKey]
      · by_cases hct : containsKey tl k = true
        · rw [if_pos hct]
          have hc : containsKey ((k₀, v₀) :: tl) k = true := by
            simpa [containsKey, h] using hct
          rw [if_pos hc]
          simp [h]
        · simp only [Bool.not_eq_true] at hct
          rw [if_neg (by simp [hct]), lookup_pyInsert, if_neg h]
          have hc : containsKey ((k₀, v₀) :: tl) k = false := by
            simpa [containsKey, h] using hct
          rw [if_neg (by simp [hc])]

theorem mem_pyInsert {d : PyDict K V} {k : K} {v : V} {kv : K × V}
    (h : kv ∈ pyInsert d k v) : (kv.1 = k ∧ kv.2 = v) ∨ kv ∈ d := by
  induction d with
  | nil =>
      simp [pyInsert] at h
      simp [h]
  | cons hd tl ih =>
      obtain ⟨k₀, v₀⟩ := hd
      by_cases hk : k = k₀
      · subst hk
        simp only [pyInsert, if_pos rfl] at h
        rcases List.mem_cons.mp h with h | h
        · left; rw [h]; exact ⟨rfl, rfl⟩
        · right; exact List.mem_cons_of_mem _ h
      · simp only [pyInsert, if_neg hk] at h
        rcases List.mem_cons.mp h with h | h
        · right; rw [h]; exact List.mem_cons_self _ _
        · rcases ih h with h | h
          · exact Or.inl h
          · exact Or.inr (List.mem_cons_of_mem _ h)

/-- Inserting a fresh key appends the pair at the end. -/
theorem pyInsert_eq_append {d : PyDict K V} {k : K} (v : V)
    (h : containsKey d k = false) : pyInsert d k v = d ++ [(k, v)] := by
  induction d with
  | nil => rfl
  | cons hd tl ih =>
      obtain ⟨k₀, v₀⟩ := hd
      by_cases hk : k = k₀
      · subst hk; simp [containsKey] at h
      · have htl : containsKey tl k = false := by
          simpa [containsKey, hk] using h
        simp [pyInsert, hk, ih htl]

end PyDict

/-! ## Helper lemmas -/

theorem containsKey_append {K V : Type} [DecidableEq K] (d₁ d₂ : PyDict K V) (k : K) :
    containsKey (d₁ ++ d₂) k = (containsKey d₁ k || containsKey d₂ k) := by
  induction d₁ with
  | nil => simp [containsKey]
  | cons hd tl ih =>
      obtain ⟨k₀, v₀⟩ := hd
      by_cases h : k = k₀ <;> simp [containsKey, h] <;>
        simpa [containsKey] using ih

theorem mem_keys_of_mem {K V : Type} {kv : K × V} {d : PyDict K V}
    (h : kv ∈ d) : kv.1 ∈ keys d :=
  List.mem_map_of_mem Prod.fst h

/-- `processRaw` yields an entry exactly when both endpoints are present. -/
theorem processRaw_isSome (env : PsEnv) (c : RawConn) :
    (processRaw env c).isSome = (c.laddr.isSome && c.raddr.isSome) := by
  obtain ⟨la, ra, p, s, f, t⟩ := c
  cases la <;> cases ra <;> simp [processRaw]

/-- The snapshot fold ignores raw records lacking an endpoint. -/
theorem gcc_foldl_eq_filter (env : PsEnv) (raws : List RawConn) (acc : KnownMap) :
    raws.foldl (gccStep env) acc =
      (raws.filter fun c => c.laddr.isSome && c.raddr.isSome).foldl (gccStep env) acc := by
  induction raws generalizing acc with
  | nil => rfl
  | cons c tl ih =>
      by_cases h : (c.laddr.isSome && c.raddr.isSome) = true
      · rw [List.foldl_cons]
        rw [show List.filter (fun c => c.laddr.isSome && c.raddr.isSome) (c :: tl) =
            c :: List.filter (fun c => c.laddr.isSome && c.raddr.isSome) tl by
          simp [List.filter_cons, h]]
        rw [List.foldl_cons]
        exact ih _
      · have hnone : processRaw env c = none := by
          cases hp : processRaw env c with
          | none => rfl
          | some kv =>
              exfalso
              apply h
              rw [← processRaw_isSome env c, hp]
              rfl
        rw [Bool.not_eq_true] at h
        rw [List.foldl_cons]
        rw [show List.filter (fun c => c.laddr.isSome && c.raddr.isSome) (c :: tl) =
            List.filter (fun c => c.laddr.isSome && c.raddr.isSome) tl by
          simp [List.filter_cons, h]]
        show List.foldl (gccStep env) (gccStep env acc c) tl = _
        rw [show gccStep env acc c = acc by simp [gccStep, hnone]]
        exact ih _

/-- Every entry of the snapshot fold comes from the accumulator or from a
raw record with both endpoints present. -/
theorem gcc_foldl_mem (env : PsEnv) (raws : List RawConn) (acc : KnownMap)
    (kv : PyKey × ConnRecord) (h : kv ∈ raws.foldl (gccStep env) acc) :
    kv ∈ acc ∨ ∃ c ∈ raws, c.laddr.isSome = true ∧ c.raddr.isSome = true := by
  induction raws generalizing acc with
  | nil => exact Or.inl h
  | cons c tl ih =>
      rw [List.foldl_cons] at h
      rcases ih (gccStep env acc c) h with h' | ⟨c', hc', hl', hr'⟩
      · cases hp : processRaw env c with
        | none =>
            rw [gccStep, hp] at h'
            exact Or.inl h'
        | some kv₀ =>
            rw [gccStep, hp] at h'
            rcases mem_pyInsert h' with h'' | h''
            · right
              refine ⟨c, List.mem_cons_self _ _, ?_⟩
              have := processRaw_isSome env c
              rw [hp] at this
              constructor
              · cases hla : c.laddr.isSome
                · rw [hla] at this; simp at this
                · rfl
              · cases hra : c.raddr.isSome
                · rw [hra] at this; simp at this
                · rfl
            · exact Or.inl h''
      · exact Or.inr ⟨c', List.mem_cons_of_mem _ hc', hl', hr'⟩

/-- The diff fold builds the filtered list, appended to the accumulator. -/
theorem new_conn_foldl_eq_filter (known current acc : KnownMap)
    (hnd : (keys current).Nodup)
    (hdisj : ∀ kv ∈ current, containsKey acc kv.1 = false) :
    current.foldl
        (fun nw kv =>
          if containsKey known kv.1 then nw else pyInsert nw kv.1 kv.2)
        acc =
      acc ++ current.filter (fun kv => !containsKey known kv.1) := by
  induction current generalizing acc with
  | nil => simp
  | cons kv tl ih =>
      simp only [keys, List.map_cons, List.nodup_cons] at hnd
      by_cases hk : containsKey known kv.1 = true
      · rw [List.foldl_cons, if_pos hk,
          ih acc hnd.2 (fun kv' h' => hdisj kv' (List.mem_cons_of_mem _ h')),
          List.filter_cons_of_neg (by simp [hk])]
      · have hacc : containsKey acc kv.1 = false := hdisj kv (List.mem_cons_self _ _)
        rw [List.foldl_cons, if_neg hk, pyInsert_eq_append _ hacc]
        rw [ih (acc ++ [kv]) hnd.2 ?_]
        · rw [List.filter_cons_of_pos (by simp [hk]), List.append_assoc]
          rfl
        · intro kv' h'
          rw [containsKey_append, hdisj kv' (List.mem_cons_of_mem _ h')]
          have hne : ¬kv'.1 = kv.1 := by
            intro he
            exact hnd.1 (he ▸ mem_keys_of_mem h')
          obtain ⟨k₀, v₀⟩ := kv
          have hne' : ¬kv'.1 = k₀ := hne
          simp [containsKey, hne']

/-- A key already known never appears in the diff fold's output. -/
theorem new_conn_foldl_not_known (known current acc : KnownMap) (k : PyKey)
    (hk : containsKey known k = true) (hacc : containsKey acc k = false) :
    containsKey
        (current.foldl
          (fun nw kv =>
            if containsKey known kv.1 then nw else pyInsert nw kv.1 kv.2)
          acc)
        k = false := by
  induction current generalizing acc with
  | nil => exact hacc
  | cons kv tl ih =>
      by_cases h : containsKey known kv.1 = true
      · rw [List.foldl_cons, if_pos h]
        exact ih acc hacc
      · rw [List.foldl_cons, if_neg h]
        apply ih
        rw [containsKey_pyInsert]
        have hne : ¬k = kv.1 := fun he => h (he ▸ hk)
        simp [hne, hacc]

/-- The first component of `check_for_new_connections` is the diff,
whatever happens on the reporting side. -/
theorem check_for_new_connections_fst (known current : KnownMap)
    (o : Option String) (fs : FS) (w : Bool) :
    (check_for_new_connections known current o fs w).1 =
      new_connections_of known current := by
  unfold check_for_new_connections
  cases o <;> cases w <;> simp <;> split <;> rfl

/-- Decoding inverts serialization, turning every key into its string form. -/
theorem jsonToKnown_knownToJson (m : KnownMap) :
    jsonToKnown (knownToJson m) =
      some (m.map (fun kv => (PyKey.str (keyToString kv.1), kv.2))) := by
  induction m with
  | nil => rfl
  | cons kv tl ih =>
      obtain ⟨k, r⟩ := kv
      have hr : jsonToRecord (recordToJson r) = some r := by
        obtain ⟨p, la, ra, st, pn, fam, ty⟩ := r
        cases p <;> rfl
      simp only [knownToJson, jsonToKnown, List.map_cons, List.foldr_cons] at ih ⊢
      rw [hr, ih]

/-- `update` never loses keys along a run. -/
theorem containsKey_known_after_mono (init : KnownMap) (snaps : List KnownMap)
    (k : PyKey) (h : containsKey init k = true) :
    containsKey (known_after init snaps) k = true := by
  induction snaps generalizing init with
  | nil => exact h
  | cons s tl ih =>
      show containsKey (known_after (pyUpdate init s) tl) k = true
      exact ih _ (by rw [containsKey_pyUpdate, h]; rfl)

/-- A key of any snapshot of a run is a key of the accumulated known set. -/
theorem containsKey_known_after_of_mem (init : KnownMap) (snaps : List KnownMap)
    (s : KnownMap) (hs : s ∈ snaps) (k : PyKey) (h : containsKey s k = true) :
    containsKey (known_after init snaps) k = true := by
  induction snaps generalizing init with
  | nil => cases hs
  | cons s₀ tl ih =>
      rcases List.mem_cons.mp hs with he | hm
      · subst he
        show containsKey (known_after (pyUpdate init s) tl) k = true
        exact containsKey_known_after_mono _ _ _
          (by rw [containsKey_pyUpdate, h]; simp)
      · exact ih _ hm

/-! ## The claims -/

/-- C3: for all mappings `known` and `current`, `check_for_new_connections`
returns exactly the `(fingerprint, record)` pairs of `current` whose
fingerprint is not a key of `known`; in particular the result is empty
whenever every fingerprint of `current` is a key of `known`. -/
theorem check_for_new_connections_diff (known current : KnownMap)
    (o : Option String) (fs : FS) (w : Bool)
    (hnd : (keys current).Nodup) :
    (check_for_new_connections known current o fs w).1 =
      current.filter (fun kv => !containsKey known kv.1) ∧
    ((∀ kv ∈ current, containsKey known kv.1 = true) →
      (check_for_new_connections known current o fs w).1 = []) := by
  rw [check_for_new_connections_fst]
  have h1 : new_connections_of known current =
      current.filter (fun kv => !containsKey known kv.1) := by
    have h := new_conn_foldl_eq_filter known current [] hnd (fun kv _ => rfl)
    simpa [new_connections_of] using h
  refine ⟨h1, fun hall => ?_⟩
  rw [h1, List.filter_eq_nil_iff]
  intro kv hkv
  simp [hall kv hkv]

theorem check_for_new_connections_diff_witness :
    (check_for_new_connections known0 current0 none fs0 false).1 =
      current0.filter (fun kv => !containsKey known0 kv.1) :=
  (check_for_new_connections_diff known0 current0 none fs0 false (by decide)).1

/-- C4: the fingerprint is a pure, deterministic function of
`(pid, localAddress, remoteAddress, status)` only: two raw records that
agree on these four fields produce the same fingerprint key, for any
socket family, socket type and any process-name resolution behaviour. -/
theorem connection_hash_deterministic (env₁ env₂ : PsEnv)
    (la ra : Option Addr) (pid : Option Int) (status f₁ t₁ f₂ t₂ : String) :
    (processRaw env₁ ⟨la, ra, pid, status, f₁, t₁⟩).map Prod.fst =
      (processRaw env₂ ⟨la, ra, pid, status, f₂, t₂⟩).map Prod.fst := by
  cases la <;> cases ra <;> simp [processRaw]

/-- C5: after `known_connections.update(current_connections)` every key of
`known` is still present, every key of `current` is present (its record
overwriting the old one), and nothing is removed. -/
theorem pyUpdate_merge_monotone (known current : KnownMap)
    (hnd : (keys current).Nodup) :
    (∀ k, containsKey known k = true →
        containsKey (pyUpdate known current) k = true) ∧
    (∀ k, containsKey current k = true →
        containsKey (pyUpdate known current) k = true) ∧
    (∀ k, containsKey current k = true →
        lookup (pyUpdate known current) k = lookup current k) ∧
    (∀ k, containsKey current k = false →
        lookup (pyUpdate known current) k = lookup known k) := by
  refine ⟨fun k h => ?_, fun k h => ?_, fun k h => ?_, fun k h => ?_⟩
  · rw [containsKey_pyUpdate, h]
    rfl
  · rw [containsKey_pyUpdate, h]
    simp
  · rw [lookup_pyUpdate _ _ hnd, if_pos h]
  · rw [lookup_pyUpdate _ _ hnd, if_neg (by simp [h])]

theorem pyUpdate_merge_monotone_witness :
    containsKey (pyUpdate known0 current0) (PyKey.int 1) = true :=
  (pyUpdate_merge_monotone known0 current0 (by decide)).1 (PyKey.int 1) (by decide)

/-- C6: `load_known_connections` on a nonexistent path, on an empty file
and on a file of syntactically invalid JSON returns the empty mapping in
every case (and, being a total function, never raises past the load
boundary). -/
theorem load_known_connections_resilient (fs : FS) (file_path : String) :
    (fs file_path = .absent →
        load_known_connections fs file_path = .jobj []) ∧
    (fs file_path = .file (.malformed "") →
        load_known_connections fs file_path = .jobj []) ∧
    (∀ s, fs file_path = .file (.malformed s) →
        load_known_connections fs file_path = .jobj []) := by
  refine ⟨fun h => ?_, fun h => ?_, fun s h => ?_⟩ <;>
    · unfold load_known_connections
      rw [h]

theorem load_known_connections_resilient_witness :
    load_known_connections fs0 "known_connections.json" = .jobj [] ∧
    load_known_connections fsEmptyFile "known_connections.json" = .jobj [] ∧
    load_known_connections fsBadFile "known_connections.json" = .jobj [] :=
  ⟨(load_known_connections_resilient fs0 _).1 rfl,
   (load_known_connections_resilient fsEmptyFile _).2.1 rfl,
   (load_known_connections_resilient fsBadFile _).2.2 "not json" rfl⟩

/-- C7: the snapshot never contains a record built from a raw connection
lacking either endpoint: the snapshot equals the snapshot of the filtered
input (such records are silently skipped), and every snapshot entry stems
from a raw record with both endpoints present. -/
theorem get_current_connections_filter_invariant (env : PsEnv) (raws : List RawConn) :
    get_current_connections env raws =
      get_current_connections env
        (raws.filter fun c => c.laddr.isSome && c.raddr.isSome) ∧
    ∀ kv ∈ get_current_connections env raws,
      ∃ c ∈ raws, c.laddr.isSome = true ∧ c.raddr.isSome = true := by
  constructor
  · exact gcc_foldl_eq_filter env raws []
  · intro kv hkv
    rcases gcc_foldl_mem env raws [] kv hkv with h | h
    · simp at h
    · exact h

/-- C9: a failed `save_known_connections` is absorbed (the function
returns normally for every input, failing or not) and leaves the
in-memory mapping exactly as it was. -/
theorem save_known_connections_failure_atomic (connections : KnownMap)
    (file_path : String) (fs : FS) (ioFail : Bool) :
    (save_known_connections connections file_path fs ioFail).1 = connections := by
  cases ioFail <;> rfl

/-- Stringifying the keys of a mapping whose keys are already strings is
the identity. -/
theorem map_strKeys_id (l : KnownMap)
    (hl : ∀ kv ∈ l, PyKey.str (keyToString kv.1) = kv.1) :
    l.map (fun kv => (PyKey.str (keyToString kv.1), kv.2)) = l := by
  induction l with
  | nil => rfl
  | cons kv tl ih =>
      rw [List.map_cons, ih (fun kv' h' => hl kv' (List.mem_cons_of_mem _ h'))]
      obtain ⟨k, v⟩ := kv
      rw [show PyKey.str (keyToString k) = k from hl (k, v) (List.mem_cons_self _ _)]

/-- C1 counterexample: saving the mapping whose single key is the `int`
fingerprint `0` and loading the file back yields the key as the string
`"0"`; the reloaded mapping is not equal to the saved one. -/
theorem save_load_roundtrip_counterexample :
    jsonToKnown (load_known_connections
        (save_known_connections [(PyKey.int 0, rec0)]
            "known_connections.json" fs0 false).2
        "known_connections.json") =
      some [(PyKey.str "0", rec0)] ∧
    some [(PyKey.str "0", rec0)] ≠ some [(PyKey.int 0, rec0)] := by
  constructor
  · rfl
  · decide

/-- C1 (amended): save followed by load yields the saved mapping with every
key replaced by its string serialization, each record preserved
field-for-field; the result equals the saved mapping exactly when every
key already is a string. -/
theorem save_load_roundtrip (m : KnownMap) (file_path : String) (fs : FS) :
    jsonToKnown (load_known_connections
        (save_known_connections m file_path fs false).2 file_path) =
      some (m.map (fun kv => (PyKey.str (keyToString kv.1), kv.2))) ∧
    ((∀ kv ∈ m, PyKey.str (keyToString kv.1) = kv.1) →
      jsonToKnown (load_known_connections
          (save_known_connections m file_path fs false).2 file_path) = some m) := by
  have hload : load_known_connections
      (save_known_connections m file_path fs false).2 file_path = knownToJson m := by
    simp [save_known_connections, fsWrite, load_known_connections]
  constructor
  · rw [hload, jsonToKnown_knownToJson]
  · intro hall
    rw [hload, jsonToKnown_knownToJson]
    congr 1
    exact map_strKeys_id m hall


theorem save_load_roundtrip_witness :
    jsonToKnown (load_known_connections
        (save_known_connections mStr "known_connections.json" fs0 false).2
        "known_connections.json") = some mStr :=
  (save_load_roundtrip mStr "known_connections.json" fs0).2 (by decide)




/-- C2 counterexample: a raw connection with both addresses whose pid is
present but whose process has vanished before the `psutil.pid_exists`
check is included with `process_name = "System"`, not `"Unknown"` as the
claim requires when resolution of a present pid fails. -/
theorem process_name_sentinels_counterexample :
    (get_current_connections envVanished [rawPid]).map
        (fun kv => kv.2.process_name) = ["System"] ∧
    ("System" : String) ≠ "Unknown" := by
  constructor
  · rfl
  · decide

/-- C2 (amended): a raw record with both addresses is always included in
the snapshot; its sentinel is `"Unknown"` exactly when the pid is present,
still passes the `pid_exists` check, and name resolution then raises
(process vanished meanwhile, or access denied); when the pid is absent or
`pid_exists` already fails, the sentinel is `"System"`; in no case is the
record dropped. -/
theorem process_name_sentinels (env : PsEnv) (la ra : Addr)
    (pid : Option Int) (status fam ty : String) :
    (processRaw env ⟨some la, some ra, pid, status, fam, ty⟩).isSome = true ∧
    (∀ p e, pid = some p → env.pid_exists p = true → env.proc_name p = .error e →
        (processRaw env ⟨some la, some ra, pid, status, fam, ty⟩).map
            (fun kv => kv.2.process_name) = some "Unknown") ∧
    (∀ p, pid = some p → env.pid_exists p = false →
        (processRaw env ⟨some la, some ra, pid, status, fam, ty⟩).map
            (fun kv => kv.2.process_name) = some "System") ∧
    (pid = none →
        (processRaw env ⟨some la, some ra, pid, status, fam, ty⟩).map
            (fun kv => kv.2.process_name) = some "System") := by
  refine ⟨?_, ?_, ?_, ?_⟩
  · simp [processRaw]
  · intro p e hp hex herr
    subst hp
    simp [processRaw, hex, herr]
  · intro p hp hex
    subst hp
    simp [processRaw, hex]
  · intro hp
    subst hp
    simp [processRaw]

theorem process_name_sentinels_witness :
    (processRaw envDenied ⟨some ⟨"10.0.0.1", 5000⟩, some ⟨"93.184.216.34", 443⟩,
        some 42, "ESTABLISHED", "2", "1"⟩).map (fun kv => kv.2.process_name) =
      some "Unknown" :=
  (process_name_sentinels envDenied ⟨"10.0.0.1", 5000⟩ ⟨"93.184.216.34", 443⟩
      (some 42) "ESTABLISHED" "2" "1").2.1 42 () rfl rfl rfl

/-- C8: when the diff is non-empty and an output path is configured (and
the write does not fail), after the tick the output file holds exactly the
serialized diff — never the full known set, and whatever the file held
before is overwritten. -/
theorem check_output_file_exact (known current : KnownMap) (p : String) (fs : FS)
    (h : new_connections_of known current ≠ []) :
    (check_for_new_connections known current (some p) fs false).2 p =
      .file (.wellFormed (knownToJson (new_connections_of known current))) := by
  have hne : (new_connections_of known current).isEmpty = false :=
    List.isEmpty_eq_false.mpr h
  simp only [check_for_new_connections, hne]
  simp [fsWrite]

theorem check_output_file_exact_witness :
    (check_for_new_connections known0 current0
        (some "new_connections.json") fs0 false).2 "new_connections.json" =
      .file (.wellFormed (knownToJson (new_connections_of known0 current0))) :=
  check_output_file_exact known0 current0 "new_connections.json" fs0 (by decide)

/-- C10: within one run, a fingerprint that appeared in the snapshot of an
earlier tick `i` is a key of the accumulated known set at every later tick
`j`, so the diff of tick `j` never reports it as new again. -/
theorem no_repeated_alerts (init : KnownMap) (snaps : List KnownMap)
    (i j : Nat) (hij : i < j) (hj : j < snaps.length) (k : PyKey)
    (hk : containsKey (snaps.get ⟨i, Nat.lt_trans hij hj⟩) k = true) :
    containsKey (known_after init (snaps.take j)) k = true ∧
    containsKey
        (new_connections_of (known_after init (snaps.take j))
          (snaps.get ⟨j, hj⟩)) k = false := by
  have hi' : i < (snaps.take j).length := by
    rw [List.length_take]
    omega
  have hmem : snaps.get ⟨i, Nat.lt_trans hij hj⟩ ∈ snaps.take j := by
    have heq : (snaps.take j).get ⟨i, hi'⟩ = snaps.get ⟨i, Nat.lt_trans hij hj⟩ := by
      rw [List.get_eq_getElem, List.get_eq_getElem]
      exact List.getElem_take snaps
    rw [← heq]
    exact List.get_mem _ _ _
  have h1 : containsKey (known_after init (snaps.take j)) k = true :=
    containsKey_known_after_of_mem init (snaps.take j) _ hmem k hk
  refine ⟨h1, ?_⟩
  have h2 := new_conn_foldl_not_known (known_after init (snaps.take j))
    (snaps.get ⟨j, hj⟩) [] k h1 rfl
  simpa [new_connections_of] using h2

theorem no_repeated_alerts_witness :
    containsKey (known_after [] ([current0, current0].take 1)) (PyKey.int 2) = true ∧
    containsKey
        (new_connections_of (known_after [] ([current0, current0].take 1))
          ([current0, current0].get ⟨1, by decide⟩)) (PyKey.int 2) = false :=
  no_repeated_alerts [] [current0, current0] 0 1 (by decide) (by decide)
    (PyKey.int 2) (by decide)
